import Mathlib

/-!
Verification of the `persistent_structures` repository: a shallow embedding of
`fsdict.py` (`FSDict`, a MutableMapping over a directory) and `fsqueue.py`
(`FSQueue`, a queue over a directory), together with proofs and refutations of
the specification's claims.

Modelling conventions:
* A directory is an association list of (name, entry).  Names of direct
  children are unique on a real filesystem; the operations below are written
  against the same association-list discipline the OS provides.
* Python strings compare lexicographically by code point; `lexLt` mirrors that
  on `List Char` via `Char.toNat`.
* Exception messages are not modelled, only the exception class, since every
  claim is about error kinds.
* Both adapters open files in Python's default text mode.  On read this
  applies universal-newline translation (`'\r\n'` and lone `'\r'` become
  `'\n'`): `univNewlines` / `pyReadText` model it, and every read below goes
  through them.  On write, text mode translates `'\n'` to `os.linesep`, which
  is `'\n'` on the POSIX hosts modelled here, so writes store the value
  verbatim.
* A regular file may lack read/write permission (`Entry.fileNoRead`, think
  `chmod 000`): `os.path.isfile` is still true for it, but `open` raises a
  raw `PermissionError`.  The directory itself is assumed accessible and
  writable (listing, creating and `os.remove`-ing entries inside it succeed);
  failures of those directory-level operations are outside the model.
* Keys that are single path components ("simple names") resolve to direct
  children; a key containing a NUL byte makes `os.path.isfile` / `os.path.isdir`
  return `False` (CPython swallows the `ValueError`) while `open` and
  `os.remove` raise `ValueError`.  Multi-component keys (containing `/`, or
  `"."` / `".."`) escape the single-directory model and are outside the
  modelled domain; the definitions below collapse them to the failing branch.
-/

/-- Python code-point comparison `a < b` on strings, as lists of characters. -/
def lexLt : List Char → List Char → Bool
  | _, [] => false
  | [], _ :: _ => true
  | a :: as, b :: bs => a.toNat < b.toNat || (a == b && lexLt as bs)

/-- Python `a < b` on strings. -/
def strLt (a b : String) : Bool := lexLt a.data b.data

/-- Python `a > b` on strings. -/
def strGt (a b : String) : Bool := strLt b a

/-- Insert into an ascending list, keeping it ascending (stable). -/
def insertSorted (x : String) : List String → List String
  | [] => [x]
  | y :: ys => if strLt x y then x :: y :: ys else y :: insertSorted x ys

/-- Python `list.sort()` on strings: ascending lexicographic order. -/
def sortNames : List String → List String
  | [] => []
  | x :: xs => insertSorted x (sortNames xs)

/-- Strip a leading occurrence of `sep` from `l`, if present. -/
def stripPre : List Char → List Char → Option (List Char)
  | [], ys => some ys
  | _ :: _, [] => none
  | x :: xs, y :: ys => if x == y then stripPre xs ys else none

/-- Fuel-driven worker for `pySplit`: scan the text, splitting at each
leftmost non-overlapping occurrence of `sep`.  `acc` holds the current token
reversed.  With fuel at least the text length the fuel never runs out. -/
def pySplitAux (sep : List Char) : Nat → List Char → List Char → List (List Char)
  | 0, rest, acc => [acc.reverse ++ rest]
  | _ + 1, [], acc => [acc.reverse]
  | n + 1, c :: rest, acc =>
    match stripPre sep (c :: rest) with
    | some rem => acc.reverse :: pySplitAux sep n rem []
    | none => pySplitAux sep n rest (c :: acc)

/-- Python `s.split(sep)` for a non-empty separator `sep`. -/
def pySplit (s sep : String) : List String :=
  (pySplitAux sep.data (s.data.length + 1) s.data []).map String.mk

/-- ASCII decimal digit. -/
def isAsciiDigit (c : Char) : Bool := 48 ≤ c.toNat && c.toNat ≤ 57

/-- Numeric value of a list of ASCII digits. -/
def digitsVal (l : List Char) : Nat :=
  l.foldl (fun acc c => acc * 10 + (c.toNat - 48)) 0

/-- ASCII whitespace, as stripped by Python `int()`. -/
def isSpaceChar (c : Char) : Bool := c.toNat == 32 || (9 ≤ c.toNat && c.toNat ≤ 13)

/-- Strip leading and trailing whitespace. -/
def pyStrip (l : List Char) : List Char :=
  ((l.dropWhile isSpaceChar).reverse.dropWhile isSpaceChar).reverse

/-- Python `int(s)` on ASCII decimal input: optional surrounding whitespace,
optional sign, one or more digits; `none` models the `ValueError` raised on
anything else.  (Python additionally accepts single underscores between
digits; that corner is not modelled and no claim reaches it.) -/
def pyInt (s : String) : Option Int :=
  match pyStrip s.data with
  | [] => none
  | '-' :: ds =>
    if !ds.isEmpty && ds.all isAsciiDigit then some (-(digitsVal ds : Int)) else none
  | '+' :: ds =>
    if !ds.isEmpty && ds.all isAsciiDigit then some (digitsVal ds : Int) else none
  | ds =>
    if ds.all isAsciiDigit then some (digitsVal ds : Int) else none

/-- Fuel-driven decimal digits of a natural number, most significant first. -/
def natToStrAux : Nat → Nat → List Char
  | 0, _ => []
  | f + 1, n =>
    if n < 10 then [Char.ofNat (48 + n)]
    else natToStrAux f (n / 10) ++ [Char.ofNat (48 + n % 10)]

/-- Python `str(n)` for a natural number. -/
def natToStr (n : Nat) : String := String.mk (natToStrAux (n + 1) n)

/-- Python `str(i)` for an integer. -/
def intToStr (i : Int) : String :=
  if i < 0 then "-" ++ natToStr i.natAbs else natToStr i.natAbs

/-- Universal-newline translation applied by a text-mode read (`newline=None`):
`'\r\n'` and lone `'\r'` both become `'\n'`. -/
def univNewlines : List Char → List Char
  | [] => []
  | [c] => if c = '\r' then ['\n'] else [c]
  | c :: c2 :: rest =>
    if c = '\r' then
      if c2 = '\n' then '\n' :: univNewlines rest
      else '\n' :: univNewlines (c2 :: rest)
    else c :: univNewlines (c2 :: rest)

/-- What Python's text-mode `file_handle.read()` returns for a file whose
stored bytes decode to `s`. -/
def pyReadText (s : String) : String := String.mk (univNewlines s.data)

/-- The Python exception classes reaching the caller in this development.
Messages are not modelled.  `emptyErr` is `queue.Empty`, raised by the
non-blocking `Queue.get` wrapper; `osError` carries the concrete `OSError`
subclass name. -/
inductive PyErr where
  | keyError : PyErr
  | valueError : PyErr
  | typeError : PyErr
  | indexError : PyErr
  | emptyErr : PyErr
  | osError : String → PyErr
deriving DecidableEq, Repr

/-- The spec's declared operation-failure kinds (§7): `NotFound` is `KeyError`
for the mapping and `queue.Empty` for the queue; `Collision` is never raised by
this code; raw `OSError` / `ValueError` / `TypeError` / `IndexError` are not
declared kinds. -/
def declaredKind : PyErr → Bool
  | PyErr.keyError => true
  | PyErr.emptyErr => true
  | _ => false

/-- A result either succeeded or failed with a declared error kind. -/
def okOrDeclared {α : Type} : Except PyErr α → Prop
  | Except.ok _ => True
  | Except.error e => declaredKind e = true

/-- A direct child of a directory: a readable regular file with its stored
content, a regular file whose permissions deny reading and writing (e.g.
`chmod 000` — `os.path.isfile` is true but `open` raises `PermissionError`),
a subdirectory, or an entry that is neither a regular file nor a directory
(device node, dangling symlink, fifo, ...). -/
inductive Entry where
  | file : String → Entry
  | fileNoRead : String → Entry
  | dir : Entry
  | other : Entry
deriving DecidableEq, Repr

/-- The state of an `FSDict` directory: its direct children. -/
abbrev DirState : Type := List (String × Entry)

/-- What `FSDict.__getitem__` returns: file text, or a nested `FSDict`. -/
inductive DVal where
  | text : String → DVal
  | nested : DVal
deriving DecidableEq, Repr

instance {ε α : Type} [DecidableEq ε] [DecidableEq α] : DecidableEq (Except ε α)
  | Except.ok a, Except.ok b =>
    if h : a = b then isTrue (by rw [h]) else isFalse (by intro hc; cases hc; exact h rfl)
  | Except.error a, Except.error b =>
    if h : a = b then isTrue (by rw [h]) else isFalse (by intro hc; cases hc; exact h rfl)
  | Except.ok _, Except.error _ => isFalse (by intro hc; cases hc)
  | Except.error _, Except.ok _ => isFalse (by intro hc; cases hc)

/-- Look up the entry stored under name `k` (filesystem name resolution). -/
def findEntry : DirState → String → Option Entry
  | [], _ => none
  | p :: st, k => if p.1 == k then some p.2 else findEntry st k

/-- `open(path, 'w')`: overwrite the entry named `k` if present, else create
it at the end of the listing. -/
def setEntry (st : DirState) (k : String) (e : Entry) : DirState :=
  if List.any st (fun p => p.1 == k) then
    List.map (fun p => if p.1 == k then (k, e) else p) st
  else st ++ [(k, e)]

/-- `os.remove`: drop the entry named `k`. -/
def removeEntry (st : DirState) (k : String) : DirState :=
  List.filter (fun p => !(p.1 == k)) st

/-- The key contains a NUL byte (invalid for path construction). -/
def hasNull (k : String) : Bool := k.data.contains (Char.ofNat 0)

/-- The key is a single path component naming a direct child: non-empty, not
`"."` or `".."`, no path separator, no NUL byte. -/
def simpleName (k : String) : Bool :=
  !(k == "") && !(k == ".") && !(k == "..") &&
    !(k.data.contains '/') && !hasNull k

/-- `FSDict.__getitem__`: `os.path.isfile` → `open` for reading and return
the text-mode read of the file; `os.path.isdir` → return a nested `FSDict`;
otherwise the explicit `raise KeyError` fires (for a NUL-byte key both path
tests return `False`, so the same `KeyError` fires).  Only
`ValueError` / `TypeError` are caught and re-raised as `KeyError`; on an
unreadable regular file `os.path.isfile` holds, `open` raises
`PermissionError`, and that raw `OSError` escapes uncaught. -/
def FSDict.getitem (st : DirState) (k : String) : Except PyErr DVal :=
  if simpleName k then
    match findEntry st k with
    | some (Entry.file c) => Except.ok (DVal.text (pyReadText c))
    | some (Entry.fileNoRead _) => Except.error (PyErr.osError "PermissionError")
    | some Entry.dir => Except.ok DVal.nested
    | some Entry.other => Except.error PyErr.keyError
    | none => Except.error PyErr.keyError
  else Except.error PyErr.keyError

/-- `FSDict.__setitem__`: `open(path, 'w')` then write.  A directory entry
makes `open` raise `IsADirectoryError`, a write-protected file a
`PermissionError`, a special entry an `OSError`, a NUL-byte key a
`ValueError`; all are caught by
`except (OSError, IOError, ValueError, TypeError)` and re-raised as
`KeyError`, so `Set` never leaks a raw error.  Otherwise the file is created
or its content replaced. -/
def FSDict.setitem (st : DirState) (k : String) (v : String) :
    Except PyErr DirState :=
  if simpleName k then
    match findEntry st k with
    | some Entry.dir => Except.error PyErr.keyError
    | some (Entry.fileNoRead _) => Except.error PyErr.keyError
    | some Entry.other => Except.error PyErr.keyError
    | _ => Except.ok (setEntry st k (Entry.file v))
  else Except.error PyErr.keyError

/-- `FSDict.__delitem__`: `os.remove(path)` with only `FileNotFoundError`
caught (re-raised as `KeyError`).  On a directory entry `os.remove` raises
`IsADirectoryError`, which escapes raw; on a NUL-byte key it raises
`ValueError`, which escapes raw.  Removing an unreadable file or a special
entry succeeds: `os.remove` needs only write permission on the directory. -/
def FSDict.delitem (st : DirState) (k : String) : Except PyErr DirState :=
  if simpleName k then
    match findEntry st k with
    | none => Except.error PyErr.keyError
    | some Entry.dir => Except.error (PyErr.osError "IsADirectoryError")
    | some _ => Except.ok (removeEntry st k)
  else if hasNull k then Except.error PyErr.valueError
  else Except.error PyErr.keyError

/-- `FSDict.__len__`: `len(os.listdir(directory))`, counting every direct
child whatever its kind. -/
def FSDict.len (st : DirState) : Nat := st.length

/-- `FSDict.__iter__`: `os.scandir` filtered to entries that are a regular
file (readable or not — `isfile` needs no read permission) or a directory;
names of other entry kinds are skipped. -/
def FSDict.iter (st : DirState) : List String :=
  List.filterMap
    (fun p => match p.2 with
      | Entry.other => none
      | _ => some p.1) st

/-- The state of an `FSQueue` directory.  The queue itself only ever creates
readable regular files, but the directory is ordinary and may also hold
entries made by others, so it carries the same entry model as `FSDict`. -/
abbrev QState : Type := DirState

/-- `os.listdir` for the queue directory. -/
def qnames (st : QState) : List String := List.map (fun p => p.1) st

/-- `FSQueue._qsize`: `len(os.listdir(directory))`. -/
def FSQueue.qsize (st : QState) : Nat := st.length

/-- One step of `_put`'s scan: `if item > highest_name: highest_name = item`. -/
def hstep (h item : String) : String := if strGt item h then item else h

/-- `_put`'s scan for the highest name: fold `hstep` over the sorted listing,
starting from the baseline `pfx + '1'`. -/
def highestName (pfx : String) (names : List String) : String :=
  List.foldl hstep (pfx ++ "1") names

/-- The name `FSQueue._put` chooses for the new entry: take the highest name
(lexicographically, baseline `pfx + '1'`), split off the text after the last
occurrence of the prefix, parse it with `int` (empty text counts as 0), and
append `parsed + 1` to the prefix.  `Except.error PyErr.valueError` models the
uncaught `ValueError` from `int` (or from `split` on an empty prefix). -/
def nextName (pfx : String) (st : QState) : Except PyErr String :=
  if pfx == "" then Except.error PyErr.valueError
  else
    let highest := highestName pfx (sortNames (qnames st))
    let suffix := (pySplit highest pfx).getLastD ""
    match (if suffix == "" then some (0 : Int) else pyInt suffix) with
    | some i => Except.ok (pfx ++ intToStr (i + 1))
    | none => Except.error PyErr.valueError

/-- `FSQueue._put`: compute the next name and `open(path, 'w')` the data
there — creating the file, or silently overwriting an existing file of that
name.  `_put` catches nothing, so if the chosen name collides with a
directory, an unwritable file or a special entry, `open`'s raw
`IsADirectoryError` / `PermissionError` / `OSError` escapes. -/
def FSQueue.put (pfx : String) (st : QState) (data : String) :
    Except PyErr QState :=
  match nextName pfx st with
  | Except.ok n =>
    match findEntry st n with
    | some Entry.dir => Except.error (PyErr.osError "IsADirectoryError")
    | some (Entry.fileNoRead _) => Except.error (PyErr.osError "PermissionError")
    | some Entry.other => Except.error (PyErr.osError "OSError")
    | _ => Except.ok (setEntry st n (Entry.file data))
  | Except.error e => Except.error e

/-- `FSQueue._get`: sort the listing, take the first name (`IndexError` on an
empty listing).  If it is a readable regular file: text-mode read, remove,
return the content.  If it is an unreadable regular file, `isfile` holds but
`open` raises `PermissionError`, uncaught (only `ValueError` / `TypeError`
are caught).  Otherwise `isfile` is false and the explicit
`raise KeyError` fires. -/
def FSQueue.get (st : QState) : Except PyErr (String × QState) :=
  match sortNames (qnames st) with
  | [] => Except.error PyErr.indexError
  | t :: _ =>
    match findEntry st t with
    | some (Entry.file c) => Except.ok (pyReadText c, removeEntry st t)
    | some (Entry.fileNoRead _) => Except.error (PyErr.osError "PermissionError")
    | _ => Except.error PyErr.keyError

/-- The public non-blocking dequeue: `queue.Queue.get(block=False)` raises
`queue.Empty` when `_qsize()` is 0 and otherwise calls `_get`.  (The blocking
wrapper is the standard library's `Queue`; only its non-blocking empty check
is needed here.) -/
def FSQueue.qget (st : QState) : Except PyErr (String × QState) :=
  if FSQueue.qsize st == 0 then Except.error PyErr.emptyErr else FSQueue.get st

/-- The file name `<pfx><d>` with the default queue prefix, as `_put` builds
it. -/
def fsl (d : Nat) : String := "FSList-" ++ natToStr d

theorem length_insertSorted (x : String) (l : List String) :
    (insertSorted x l).length = l.length + 1 := by
  induction l with
  | nil => rfl
  | cons y ys ih =>
    simp only [insertSorted]
    split
    · simp
    · simp [ih]

theorem length_sortNames (l : List String) : (sortNames l).length = l.length := by
  induction l with
  | nil => rfl
  | cons x xs ih => simp [sortNames, length_insertSorted, ih]

theorem findEntry_map_over (st : DirState) (k : String) (e : Entry)
    (h : List.any st (fun p => p.1 == k) = true) :
    findEntry (List.map (fun p => if p.1 == k then (k, e) else p) st) k = some e := by
  induction st with
  | nil => simp at h
  | cons a st ih =>
    simp only [List.any_cons, Bool.or_eq_true] at h
    cases hak : (a.1 == k) with
    | true => simp [findEntry, hak]
    | false =>
      have h2 : List.any st (fun p => p.1 == k) = true := by
        rcases h with h | h
        · rw [hak] at h; cases h
        · exact h
      simp only [List.map_cons, findEntry, hak, Bool.false_eq_true, if_false]
      exact ih h2

theorem findEntry_append_absent (st : DirState) (k : String) (e : Entry)
    (h : List.any st (fun p => p.1 == k) = false) :
    findEntry (st ++ [(k, e)]) k = some e := by
  induction st with
  | nil => simp [findEntry]
  | cons a st ih =>
    simp only [List.any_cons, Bool.or_eq_false_iff] at h
    simp [findEntry, h.1, ih h.2]

theorem findEntry_setEntry_self (st : DirState) (k : String) (e : Entry) :
    findEntry (setEntry st k e) k = some e := by
  unfold setEntry
  cases hany : List.any st (fun p => p.1 == k) with
  | true => simp only [hany, if_true]; exact findEntry_map_over st k e hany
  | false => simp only [hany, Bool.false_eq_true, if_false]
             exact findEntry_append_absent st k e hany

theorem univNewlines_no_cr (l : List Char) (h : l.contains '\r' = false) :
    univNewlines l = l := by
  induction l with
  | nil => rfl
  | cons c rest ih =>
    rw [List.contains_cons, Bool.or_eq_false_iff] at h
    have hc : ¬ (c = '\r') := by
      intro hx
      rw [hx] at h
      simp at h
    cases rest with
    | nil => simp [univNewlines, hc]
    | cons c2 rest2 =>
      simp only [univNewlines, if_neg hc]
      rw [ih h.2]

theorem pyReadText_no_cr (s : String) (h : s.data.contains '\r' = false) :
    pyReadText s = s := by
  cases s with
  | mk d => exact congrArg String.mk (univNewlines_no_cr d h)

/-- Claim C1 (counterexample): with entries `FSList-9` and `FSList-10` present,
`Put` does not create `FSList-11`.  The scan picks the lexicographically
highest name `FSList-9`, parses 9, and writes `FSList-10`, silently
overwriting the existing `FSList-10` entry. -/
theorem claim_C1_counterexample :
    nextName "FSList-"
      [("FSList-9", Entry.file "a"), ("FSList-10", Entry.file "b")] =
      Except.ok "FSList-10" ∧
    FSQueue.put "FSList-"
      [("FSList-9", Entry.file "a"), ("FSList-10", Entry.file "b")] "v" =
      Except.ok [("FSList-9", Entry.file "a"), ("FSList-10", Entry.file "v")] ∧
    ¬ (nextName "FSList-"
      [("FSList-9", Entry.file "a"), ("FSList-10", Entry.file "b")] =
      Except.ok "FSList-11") := by
  refine ⟨rfl, rfl, ?_⟩
  decide

/-- Claim C2 (counterexample): the dequeue reads in text mode, so for a value
containing a carriage return the first `Get` returns the newline-translated
string, not the enqueued value: `Put("a\r\x62")` then `Get` yields
`"a\n\x62"`. -/
theorem claim_C2_counterexample :
    (FSQueue.put "FSList-" [] "a\rb").bind (fun s1 =>
      (FSQueue.put "FSList-" s1 "y").bind (fun s2 =>
        (FSQueue.qget s2).bind (fun r1 =>
          (FSQueue.qget r1.2).map (fun r2 => (r1.1, r2.1, r2.2))))) =
      Except.ok ("a\nb", "y", ([] : QState)) ∧
    ¬ (("a\nb" : String) = "a\rb") := ⟨rfl, by decide⟩

/-- Claim C2 (amended): starting from an empty queue directory with the
default prefix, `Put(v1)`, `Put(v2)`, then two `Get`s return `v1` then `v2`
and leave the directory empty, for values free of carriage returns (in
general each `Get` returns the value after universal-newline translation). -/
theorem claim_C2_fifo (v1 v2 : String)
    (h1 : v1.data.contains '\r' = false)
    (h2 : v2.data.contains '\r' = false) :
    (FSQueue.put "FSList-" [] v1).bind (fun s1 =>
      (FSQueue.put "FSList-" s1 v2).bind (fun s2 =>
        (FSQueue.qget s2).bind (fun r1 =>
          (FSQueue.qget r1.2).map (fun r2 => (r1.1, r2.1, r2.2))))) =
      Except.ok (v1, v2, ([] : QState)) := by
  have base :
      (FSQueue.put "FSList-" [] v1).bind (fun s1 =>
        (FSQueue.put "FSList-" s1 v2).bind (fun s2 =>
          (FSQueue.qget s2).bind (fun r1 =>
            (FSQueue.qget r1.2).map (fun r2 => (r1.1, r2.1, r2.2))))) =
        Except.ok (pyReadText v1, pyReadText v2, ([] : QState)) := rfl
  rw [base, pyReadText_no_cr v1 h1, pyReadText_no_cr v2 h2]

/-- Witness for the amended C2 at concrete carriage-return-free values. -/
theorem claim_C2_fifo_witness :
    (FSQueue.put "FSList-" [] "x1").bind (fun s1 =>
      (FSQueue.put "FSList-" s1 "x2").bind (fun s2 =>
        (FSQueue.qget s2).bind (fun r1 =>
          (FSQueue.qget r1.2).map (fun r2 => (r1.1, r2.1, r2.2))))) =
      Except.ok ("x1", "x2", ([] : QState)) :=
  claim_C2_fifo "x1" "x2" (by decide) (by decide)

/-- Claim C3 (counterexample): `Set("k", "a\r\x62")` succeeds, but `Get("k")`
reads in text mode and returns the newline-translated `"a\n\x62"`, not the
stored value — the round trip is not exact for values containing carriage
returns. -/
theorem claim_C3_counterexample :
    FSDict.setitem [] "k" "a\rb" = Except.ok [("k", Entry.file "a\rb")] ∧
    FSDict.getitem [("k", Entry.file "a\rb")] "k" =
      Except.ok (DVal.text "a\nb") ∧
    ¬ (DVal.text "a\nb" = DVal.text "a\rb") := ⟨rfl, rfl, by decide⟩

/-- Claim C3 (amended): whenever `Set(k, v)` succeeds and `v` contains no
carriage return, a following `Get(k)` returns exactly `v` (in general `Get`
returns `v` after universal-newline translation). -/
theorem claim_C3_roundtrip (st : DirState) (k v : String) (st' : DirState)
    (h : FSDict.setitem st k v = Except.ok st')
    (hv : v.data.contains '\r' = false) :
    FSDict.getitem st' k = Except.ok (DVal.text v) := by
  unfold FSDict.setitem at h
  cases hk : simpleName k with
  | false => rw [hk] at h; simp at h
  | true =>
    rw [hk] at h
    simp only [eq_self_iff_true, if_true] at h
    split at h <;> cases h
    all_goals
      unfold FSDict.getitem
      rw [hk]
      simp [findEntry_setEntry_self, pyReadText_no_cr v hv]

/-- Witness for the amended C3 at a concrete state. -/
theorem claim_C3_roundtrip_witness :
    FSDict.getitem [("a", Entry.file "x")] "a" = Except.ok (DVal.text "x") :=
  claim_C3_roundtrip [] "a" "x" [("a", Entry.file "x")] (by decide) (by decide)

/-- Claim C4 (counterexample): `Delete` on an existing directory entry fails
with a raw `IsADirectoryError`, which is not one of the three declared error
kinds — a raw filesystem error escapes to the caller. -/
theorem claim_C4_counterexample :
    FSDict.delitem [("d", Entry.dir)] "d" =
      Except.error (PyErr.osError "IsADirectoryError") ∧
    declaredKind (PyErr.osError "IsADirectoryError") = false :=
  ⟨rfl, rfl⟩

/-- Claim C4 (amended): of the public operations only `FSDict` `Set` confines
every failure to a declared kind — its handler catches
`OSError` / `IOError` / `ValueError` / `TypeError` and re-raises `KeyError`.
The others leak raw errors: `Get` on an unreadable regular file and the
queue's `Get` on an unreadable front entry both propagate a raw
`PermissionError` (only `ValueError` / `TypeError` are caught there),
`Delete` on a directory entry propagates `IsADirectoryError` (the
counterexample), and the queue's `Put` propagates a raw `ValueError` from
its parse step (claim C10). -/
theorem claim_C4_amended (st : DirState) (k v : String) :
    okOrDeclared (FSDict.setitem st k v) ∧
    FSDict.getitem [("p", Entry.fileNoRead "x")] "p" =
      Except.error (PyErr.osError "PermissionError") ∧
    FSQueue.get [("p", Entry.fileNoRead "x")] =
      Except.error (PyErr.osError "PermissionError") ∧
    declaredKind (PyErr.osError "PermissionError") = false := by
  refine ⟨?_, rfl, rfl, rfl⟩
  unfold FSDict.setitem
  split
  · split <;> simp [okOrDeclared, declaredKind]
  · simp [okOrDeclared, declaredKind]

/-- Claim C5 (counterexample): in a directory holding one entry that is
neither a regular file nor a directory, `Length()` is 1 while draining
`Iterate()` yields 0 keys. -/
theorem claim_C5_counterexample :
    ¬ (FSDict.len [("dev", Entry.other)] =
      (FSDict.iter [("dev", Entry.other)]).length) := by
  decide

/-- Claim C5 (amended): `Length()` equals the number of keys produced by
draining `Iterate()` whenever every direct child is a regular file or a
directory; entries of other kinds are counted by `Length()` but skipped by
`Iterate()`. -/
theorem claim_C5_amended (st : DirState)
    (h : ∀ p ∈ st, p.2 ≠ Entry.other) :
    FSDict.len st = (FSDict.iter st).length := by
  induction st with
  | nil => rfl
  | cons a st ih =>
    have ha : a.2 ≠ Entry.other := h a (List.mem_cons_self a st)
    have ht : ∀ p ∈ st, p.2 ≠ Entry.other :=
      fun p hp => h p (List.mem_cons_of_mem a hp)
    have ih2 := ih ht
    cases he : a.2 with
    | other => exact absurd he ha
    | file c =>
      simp only [FSDict.len, FSDict.iter, List.filterMap_cons, he,
        List.length_cons] at *
      omega
    | fileNoRead c =>
      simp only [FSDict.len, FSDict.iter, List.filterMap_cons, he,
        List.length_cons] at *
      omega
    | dir =>
      simp only [FSDict.len, FSDict.iter, List.filterMap_cons, he,
        List.length_cons] at *
      omega

/-- Witness for the amended C5 at a concrete state. -/
theorem claim_C5_amended_witness :
    FSDict.len [("a", Entry.file "x"), ("d", Entry.dir)] =
      (FSDict.iter [("a", Entry.file "x"), ("d", Entry.dir)]).length :=
  claim_C5_amended [("a", Entry.file "x"), ("d", Entry.dir)] (by decide)

/-- Claim C6 (confirmed): for a valid key that is not present, `Get` and
`Delete` both fail with `KeyError` (the `NotFound` kind). -/
theorem claim_C6_missing (st : DirState) (k : String)
    (hk : simpleName k = true) (h : findEntry st k = none) :
    FSDict.getitem st k = Except.error PyErr.keyError ∧
      FSDict.delitem st k = Except.error PyErr.keyError := by
  constructor
  · unfold FSDict.getitem
    simp [hk, h]
  · unfold FSDict.delitem
    simp [hk, h]

/-- Witness for C6 at a concrete state. -/
theorem claim_C6_missing_witness :
    FSDict.getitem ([] : DirState) "a" = Except.error PyErr.keyError ∧
      FSDict.delitem ([] : DirState) "a" = Except.error PyErr.keyError :=
  claim_C6_missing [] "a" (by decide) rfl

/-- Claim C7 (confirmed): for a key containing a character invalid for path
construction (a NUL byte), `Get` fails with `KeyError` rather than
propagating a lower-level argument error. -/
theorem claim_C7_nullKey (st : DirState) (k : String)
    (hk : hasNull k = true) :
    FSDict.getitem st k = Except.error PyErr.keyError := by
  have hs : simpleName k = false := by
    simp [simpleName, hk]
  unfold FSDict.getitem
  simp [hs]

/-- Witness for C7 at a concrete NUL-byte key. -/
theorem claim_C7_nullKey_witness :
    FSDict.getitem ([] : DirState) "\x00" = Except.error PyErr.keyError :=
  claim_C7_nullKey [] "\x00" (by decide)

/-- Claim C8 (confirmed): with the queue directory drained empty, `Size()`
returns 0 and a further non-blocking `Get()` fails with `queue.Empty`, the
queue's `NotFound` kind. -/
theorem claim_C8_drained :
    FSQueue.qsize ([] : QState) = 0 ∧
      FSQueue.qget ([] : QState) = Except.error PyErr.emptyErr ∧
      declaredKind PyErr.emptyErr = true :=
  ⟨rfl, rfl, rfl⟩

/-- Claim C9 (confirmed): the first `Put` into an empty queue directory
creates `FSList-2`, not `FSList-1`, because the scan's baseline `FSList-1`
has its suffix parsed as 1 even though no entry exists. -/
theorem claim_C9_firstPut (v : String) :
    FSQueue.put "FSList-" [] v = Except.ok [("FSList-2", Entry.file v)] ∧
      nextName "FSList-" [] = Except.ok "FSList-2" ∧
      ¬ (nextName "FSList-" [] = Except.ok "FSList-1") :=
  ⟨rfl, rfl, by decide⟩

/-- Claim C10 (confirmed): a directory holding an unrelated file whose name
sorts lexicographically above `FSList-1` and whose text is not a decimal
integer makes `Put` fail with an uncaught `ValueError` from the `int` parse —
not a declared error kind, and nothing is enqueued. -/
theorem claim_C10_rawValueError :
    FSQueue.put "FSList-" [("zebra.txt", Entry.file "x")] "v" =
      Except.error PyErr.valueError ∧
    strGt "zebra.txt" "FSList-1" = true ∧
    (pySplit "zebra.txt" "FSList-").getLastD "" = "zebra.txt" ∧
    pyInt "zebra.txt" = none ∧
    declaredKind PyErr.valueError = false :=
  ⟨rfl, rfl, rfl, rfl, rfl⟩

theorem charToNat_inj (a b : Char) (h : a.toNat = b.toNat) : a = b :=
  Char.eq_of_val_eq (UInt32.ext h)

theorem lexLt_irrefl (a : List Char) : lexLt a a = false := by
  induction a with
  | nil => rfl
  | cons c cs ih => simp [lexLt, ih]

theorem lexLt_trans (a : List Char) :
    ∀ b c, lexLt a b = true → lexLt b c = true → lexLt a c = true := by
  induction a with
  | nil =>
    intro b c hab hbc
    cases b with
    | nil => cases hab
    | cons y ys =>
      cases c with
      | nil => cases hbc
      | cons z zs => rfl
  | cons x xs ih =>
    intro b c hab hbc
    cases b with
    | nil => cases hab
    | cons y ys =>
      cases c with
      | nil => cases hbc
      | cons z zs =>
        simp only [lexLt, Bool.or_eq_true, Bool.and_eq_true, beq_iff_eq,
          decide_eq_true_eq] at hab hbc ⊢
        rcases hab with h1 | ⟨h1e, h1l⟩
        · rcases hbc with h2 | ⟨h2e, h2l⟩
          · left; omega
          · subst h2e; left; exact h1
        · rcases hbc with h2 | ⟨h2e, h2l⟩
          · subst h1e; left; exact h2
          · subst h1e; subst h2e; right; exact ⟨rfl, ih ys zs h1l h2l⟩

theorem lexLt_connex (a : List Char) :
    ∀ b, lexLt a b = false → lexLt b a = true ∨ a = b := by
  induction a with
  | nil =>
    intro b h
    cases b with
    | nil => right; rfl
    | cons y ys => cases h
  | cons x xs ih =>
    intro b h
    cases b with
    | nil => left; rfl
    | cons y ys =>
      simp only [lexLt, Bool.or_eq_false_iff, Bool.and_eq_false_iff,
        decide_eq_false_iff_not] at h
      obtain ⟨h1, h2⟩ := h
      cases hxy : (x == y) with
      | true =>
        have hxe : x = y := by simpa using hxy
        rw [hxy] at h2
        rcases h2 with h2 | h2
        · cases h2
        · rcases ih ys h2 with hlt | heq
          · left; subst hxe; simp [lexLt, hlt]
          · right; rw [hxe, heq]
      | false =>
        have hne : x ≠ y := by simpa using hxy
        have hlt : y.toNat < x.toNat := by
          have hnn : x.toNat ≠ y.toNat := fun hh => hne (charToNat_inj x y hh)
          omega
        left
        simp [lexLt, hlt]

theorem strLt_irrefl (a : String) : strLt a a = false := lexLt_irrefl a.data

theorem strLt_trans (a b c : String) (h1 : strLt a b = true)
    (h2 : strLt b c = true) : strLt a c = true :=
  lexLt_trans a.data b.data c.data h1 h2

theorem strLt_asymm (a b : String) (h : strLt a b = true) : strLt b a = false := by
  cases hba : strLt b a with
  | false => rfl
  | true =>
    have h2 := strLt_trans a b a h hba
    rw [strLt_irrefl] at h2
    cases h2

theorem strLt_connex (a b : String) (h : strLt a b = false) :
    strLt b a = true ∨ a = b := by
  rcases lexLt_connex a.data b.data h with h2 | h2
  · left; exact h2
  · right
    cases a
    cases b
    exact congrArg String.mk h2

theorem hstep_rightComm (b x y : String) :
    hstep (hstep b x) y = hstep (hstep b y) x := by
  unfold hstep strGt
  by_cases h1 : strLt b x = true
  · by_cases h2 : strLt b y = true
    · by_cases h3 : strLt x y = true
      · have h4 : strLt y x = false := strLt_asymm x y h3
        simp [h1, h2, h3, h4]
      · have h3f : strLt x y = false := by simpa using h3
        rcases strLt_connex x y h3f with h5 | h5
        · simp [h1, h2, h3f, h5]
        · subst h5; simp [h1]
    · have h2f : strLt b y = false := by simpa using h2
      have h3f : strLt x y = false := by
        cases h3 : strLt x y with
        | false => rfl
        | true =>
          have h4 := strLt_trans b x y h1 h3
          rw [h2f] at h4
          cases h4
      simp [h1, h2f, h3f]
  · have h1f : strLt b x = false := by simpa using h1
    by_cases h2 : strLt b y = true
    · have h3f : strLt y x = false := by
        cases h3 : strLt y x with
        | false => rfl
        | true =>
          have h4 := strLt_trans b y x h2 h3
          rw [h1f] at h4
          cases h4
      simp [h1f, h2, h3f]
    · have h2f : strLt b y = false := by simpa using h2
      simp [h1f, h2f]

theorem foldl_hstep_perm {l₁ l₂ : List String} (h : l₁.Perm l₂) :
    ∀ b, List.foldl hstep b l₁ = List.foldl hstep b l₂ := by
  induction h with
  | nil => intro b; rfl
  | cons x _ ih => intro b; simp only [List.foldl_cons]; exact ih _
  | swap x y l => intro b; simp only [List.foldl_cons]; rw [hstep_rightComm b y x]
  | trans _ _ ih1 ih2 => intro b; rw [ih1 b, ih2 b]

theorem insertSorted_perm (x : String) (l : List String) :
    (insertSorted x l).Perm (x :: l) := by
  induction l with
  | nil => exact List.Perm.refl _
  | cons y ys ih =>
    simp only [insertSorted]
    split
    · exact List.Perm.refl _
    · exact (List.Perm.cons y ih).trans (List.Perm.swap x y ys)

theorem sortNames_perm (l : List String) : (sortNames l).Perm l := by
  induction l with
  | nil => exact List.Perm.refl _
  | cons x xs ih =>
    simp only [sortNames]
    exact (insertSorted_perm x (sortNames xs)).trans (List.Perm.cons x ih)

theorem foldl_max_ge (ds : List Nat) : ∀ m, m ≤ List.foldl Nat.max m ds := by
  induction ds with
  | nil => intro m; exact Nat.le_refl m
  | cons d ds ih =>
    intro m
    simp only [List.foldl_cons]
    exact Nat.le_trans (Nat.le_max_left m d) (ih (Nat.max m d))

theorem foldl_max_le (ds : List Nat) :
    ∀ m, m ≤ 9 → (∀ d ∈ ds, d ≤ 9) → List.foldl Nat.max m ds ≤ 9 := by
  induction ds with
  | nil => intro m hm _; exact hm
  | cons d ds ih =>
    intro m hm hds
    simp only [List.foldl_cons]
    exact ih (Nat.max m d)
      (Nat.max_le.mpr ⟨hm, hds d (List.mem_cons_self d ds)⟩)
      (fun e he => hds e (List.mem_cons_of_mem d he))

theorem fsl_lt (a b : Nat) (ha1 : 1 ≤ a) (ha2 : a ≤ 9) (hb1 : 1 ≤ b)
    (hb2 : b ≤ 9) : strLt (fsl a) (fsl b) = decide (a < b) := by
  interval_cases a <;> interval_cases b <;> decide

theorem foldl_hstep_fsl (ds : List Nat) : ∀ m, 1 ≤ m → m ≤ 9 →
    (∀ d ∈ ds, 1 ≤ d ∧ d ≤ 9) →
    List.foldl hstep (fsl m) (List.map fsl ds) =
      fsl (List.foldl Nat.max m ds) := by
  induction ds with
  | nil => intro m _ _ _; rfl
  | cons d ds ih =>
    intro m hm1 hm9 hds
    have hd := hds d (List.mem_cons_self d ds)
    simp only [List.map_cons, List.foldl_cons]
    have hstep_eq : hstep (fsl m) (fsl d) = fsl (Nat.max m d) := by
      unfold hstep strGt
      rw [fsl_lt m d hm1 (by omega) hd.1 (by omega)]
      by_cases hmd : m < d
      · rw [if_pos (by simp [hmd])]
        congr 1
        exact (Nat.max_eq_right (Nat.le_of_lt hmd)).symm
      · rw [if_neg (by simp [hmd])]
        congr 1
        exact (Nat.max_eq_left (Nat.le_of_not_lt hmd)).symm
    rw [hstep_eq]
    exact ih (Nat.max m d) (Nat.le_trans hm1 (Nat.le_max_left m d))
      (Nat.max_le.mpr ⟨hm9, hd.2⟩)
      (fun e he => hds e (List.mem_cons_of_mem d he))

/-- Claim C1 (amended): for a queue directory whose entries all carry
single-digit suffixes 1–9 (the regime in which the lexicographic and numeric
maxima coincide), the new entry is named `FSList-<n+1>` with `n` the highest
numeric suffix present (baseline 1).  Outside this regime the rule is
lexicographic, as the counterexample shows. -/
theorem claim_C1_amended (ds : List Nat) (st : QState)
    (hq : qnames st = List.map fsl ds)
    (hds : ∀ d ∈ ds, 1 ≤ d ∧ d ≤ 9) :
    nextName "FSList-" st = Except.ok (fsl (List.foldl Nat.max 1 ds + 1)) := by
  have hbase : ("FSList-" ++ "1") = fsl 1 := by decide
  have hds9 : ∀ d ∈ ds, d ≤ 9 := fun d hd => (hds d hd).2
  have hh : highestName "FSList-" (sortNames (qnames st)) =
      fsl (List.foldl Nat.max 1 ds) := by
    unfold highestName
    rw [foldl_hstep_perm (sortNames_perm (qnames st)), hq, hbase]
    exact foldl_hstep_fsl ds 1 (Nat.le_refl 1) (by omega) hds
  have hM1 : 1 ≤ List.foldl Nat.max 1 ds := foldl_max_ge ds 1
  have hM9 : List.foldl Nat.max 1 ds ≤ 9 := foldl_max_le ds 1 (by omega) hds9
  unfold nextName
  rw [hh]
  generalize hM : List.foldl Nat.max 1 ds = M at hM1 hM9 ⊢
  interval_cases M <;> decide

/-- Witness for the amended C1: entries `FSList-1`, `FSList-3`, `FSList-2`
give the new name `FSList-4`. -/
theorem claim_C1_amended_witness :
    nextName "FSList-"
      [("FSList-1", Entry.file "a"), ("FSList-3", Entry.file "b"),
        ("FSList-2", Entry.file "c")] =
      Except.ok "FSList-4" :=
  claim_C1_amended [1, 3, 2]
    [("FSList-1", Entry.file "a"), ("FSList-3", Entry.file "b"),
      ("FSList-2", Entry.file "c")]
    (by decide) (by decide)
